import Mathlib

/-!
Shallow embedding of the Scaffold repository's session-to-sandbox lifecycle
manager and streaming edit coordinator (src/agent.py, src/websocket_server.py,
src/sandbox_manager.py, src/tools.py), with theorems settling the frozen
claims about it.

External collaborators (the LLM stream, Docker, the SQL store, the OS port
probe) are modelled as explicit inputs: the LLM stream as a finite list of
cumulative snapshots, uuid4 as a supply of strings indexed by a draw counter,
the database as an association list, and the port probe as a boolean
predicate on ports.
-/

namespace Scaffold

/-- The `MessageType` enum of `agent.py`.  Constructor names are Lean-safe
renderings; `value` below gives the exact wire strings of the source. -/
inductive MessageType
  | initType        -- INIT
  | userType        -- USER
  | agentDelta      -- AGENT_PARTIAL
  | agentFinal      -- AGENT_FINAL
  | loadCodeType    -- LOAD_CODE
  | editCodeType    -- EDIT_CODE
  | updateInProgress
  | updateFile
  | updateCompleted
deriving DecidableEq, Repr

/-- Wire value of each member of the `MessageType` enum, from `agent.py`. -/
def MessageType.value : MessageType → String
  | .initType => "init"
  | .userType => "user"
  | .agentDelta => "agent_partial"
  | .agentFinal => "agent_final"
  | .loadCodeType => "load_code"
  | .editCodeType => "edit_code"
  | .updateInProgress => "update_in_progress"
  | .updateFile => "update_file"
  | .updateCompleted => "update_completed"

/-- The `data` dict payloads the coordinator actually builds: `{}`,
`{"text": s}` (plan text / file progress notice), `{"error": e}`
(the server's terminal error envelope). -/
inductive MsgData
  | empty
  | text (s : String)
  | err (e : String)
deriving DecidableEq, Repr

/-- The uuid4 supply and clock threaded through `Message.new`: `uuid n` is the
string returned by the n-th call of `str(uuid.uuid4())`, `next` the index of
the next draw, `now` the current `time.time_ns() // 1_000_000` value. -/
structure Gen where
  uuid : Nat → String
  next : Nat
  now : Nat

/-- Draw one fresh uuid from the supply. -/
def freshUuid (g : Gen) : String × Gen :=
  (g.uuid g.next, { g with next := g.next + 1 })

/-- Python's `v or str(uuid.uuid4())`: a missing or empty (falsy) string is
replaced by a fresh uuid draw. -/
def orFresh (v : Option String) (g : Gen) : String × Gen :=
  match v with
  | some s => if s = "" then freshUuid g else (s, g)
  | none => freshUuid g

/-- The `Message` dataclass of `agent.py` (the protocol envelope). -/
structure Message where
  id : String
  timestamp : Nat
  type : MessageType
  data : MsgData
  session_id : String
deriving DecidableEq, Repr

/-- Model of `Message.new`: `id` and `session_id` default to fresh uuid4 draws (in that
order, matching the keyword-argument evaluation order of the source), and the
timestamp is the current clock. -/
def Message.new (ty : MessageType) (d : MsgData) (id? : Option String)
    (sid? : Option String) (g : Gen) : Message × Gen :=
  let i := orFresh id? g
  let s := orFresh sid? i.2
  ({ id := i.1, timestamp := s.2.now, type := ty, data := d, session_id := s.1 }, s.2)

/-- One file entry of a stream snapshot (`partial.files` element). -/
structure StreamFile where
  path : String
  content : String
deriving DecidableEq, Repr

/-- One cumulative snapshot received from the LLM stream
(`{plan: {state, value}, files: [...]}`). -/
structure Snapshot where
  planState : String
  planValue : String
  files : List StreamFile
deriving DecidableEq, Repr

/-- Mutable state of one `send_feedback` turn: the `sent_plan` flag, the
`new_code_map` dict (association list in insertion order), and the agent's
conversation `history` as (role, content) pairs. -/
structure TurnState where
  sent_plan : Bool
  new_code_map : List (String × String)
  history : List (String × String)
deriving DecidableEq, Repr

/-- Model of `Agent.add_to_history`: append the user feedback and the finalized plan. -/
def add_to_history (feedback plan : String) (h : List (String × String)) :
    List (String × String) :=
  h ++ [("user", feedback), ("assistant", plan)]

/-- The inner `for file in partial.files` loop of `send_feedback`: on a path
not yet in `new_code_map`, yield an `UPDATE_FILE` envelope (with the turn's
file correlation id) and record the content; a path already present is
skipped entirely (the accumulator is not overwritten). -/
def processFiles (sid fileId : String) :
    Gen → TurnState → List StreamFile → List Message × TurnState × Gen
  | g, st, [] => ([], st, g)
  | g, st, f :: fs =>
    if (st.new_code_map.lookup f.path).isSome then
      processFiles sid fileId g st fs
    else
      let m := Message.new .updateFile (.text ("Working on " ++ f.path))
        (some fileId) (some sid) g
      let st1 : TurnState :=
        { st with new_code_map := st.new_code_map ++ [(f.path, f.content)] }
      let r := processFiles sid fileId m.2 st1 fs
      (m.1 :: r.1, r.2)

/-- The body of `for partial in stream`: an `AGENT_PARTIAL` envelope while the
plan is incomplete and unsent, an `AGENT_FINAL` envelope (plus history append
and `sent_plan := true`) on the first complete plan, then the file loop.
Both plan tests read the same `sent_plan` value, as in the source: the first
branch does not mutate it. -/
def processSnapshot (sid feedback planId fileId : String)
    (g : Gen) (st : TurnState) (p : Snapshot) : List Message × TurnState × Gen :=
  let step1 : List Message × Gen :=
    if p.planState ≠ "Complete" ∧ st.sent_plan = false then
      let m := Message.new .agentDelta (.text p.planValue) (some planId) (some sid) g
      ([m.1], m.2)
    else ([], g)
  let step2 : List Message × TurnState × Gen :=
    if p.planState = "Complete" ∧ st.sent_plan = false then
      let m := Message.new .agentFinal (.text p.planValue) (some planId) (some sid) step1.2
      ([m.1],
       { st with
          sent_plan := true
          history := add_to_history feedback p.planValue st.history },
       m.2)
    else ([], st, step1.2)
  let step3 := processFiles sid fileId step2.2.2 step2.2.1 p.files
  (step1.1 ++ step2.1 ++ step3.1, step3.2)

/-- Consume the whole (finite) stream of snapshots in arrival order. -/
def processStream (sid feedback planId fileId : String) :
    Gen → TurnState → List Snapshot → List Message × TurnState × Gen
  | g, st, [] => ([], st, g)
  | g, st, p :: ps =>
    let r := processSnapshot sid feedback planId fileId g st p
    let r2 := processStream sid feedback planId fileId r.2.2 r.2.1 ps
    (r.1 ++ r2.1, r2.2)

/-- The event prefix every `send_feedback` run emits before and during stream
consumption: the initial `UPDATE_IN_PROGRESS` envelope (built *without* a
session id, so both its id and its session id are fresh uuid draws), the two
per-turn correlation ids (`plan_msg_id`, then `file_msg_id`), and the loop
over the snapshots the stream yielded. -/
def send_feedback_core (sid feedback : String) (hist : List (String × String))
    (snaps : List Snapshot) (g : Gen) : List Message × TurnState × Gen :=
  let m0 := Message.new .updateInProgress .empty none none g
  let planId := freshUuid m0.2
  let fileId := freshUuid planId.2
  let r := processStream sid feedback planId.1 fileId.1 fileId.2
    { sent_plan := false, new_code_map := [], history := hist } snaps
  (m0.1 :: r.1, r.2)

/-- A successful `send_feedback` turn: the stream is exhausted normally, the
accumulated map is committed via `edit_code`, and a final `UPDATE_COMPLETED`
envelope (fresh id, real session id) closes the sequence.  Returns the
emitted envelopes and the committed path-to-content map. -/
def send_feedback_ok (sid feedback : String) (hist : List (String × String))
    (snaps : List Snapshot) (g : Gen) :
    List Message × List (String × String) × Gen :=
  let r := send_feedback_core sid feedback hist snaps g
  let mEnd := Message.new .updateCompleted .empty none (some sid) r.2.2
  (r.1 ++ [mEnd.1], r.2.1.new_code_map, mEnd.2)

/-- Outcome of the LLM stream for one turn: either it yields all its
snapshots and ends normally, or it yields a prefix and then raises. -/
inductive StreamOutcome
  | ok (snaps : List Snapshot)
  | failAfter (yielded : List Snapshot) (e : String)
deriving Repr

/-- The `message_type == USER` branch of `websocket_endpoint` plus its
`except` handler: on a normal stream the generator's envelopes (ending in
`UPDATE_COMPLETED`) are forwarded and the map is committed; if the stream
raises, the envelopes yielded so far were already forwarded, nothing is
committed, and the handler sends one `AGENT_FINAL` envelope whose payload is
`{"error": str(e)}`.  The middle component is the committed map, `none` when
the turn aborted before `edit_code`. -/
def websocket_user_turn (sid feedback : String) (hist : List (String × String))
    (outcome : StreamOutcome) (g : Gen) :
    List Message × Option (List (String × String)) × Gen :=
  match outcome with
  | .ok snaps =>
    let r := send_feedback_ok sid feedback hist snaps g
    (r.1, some r.2.1, r.2.2)
  | .failAfter yielded e =>
    let r := send_feedback_core sid feedback hist yielded g
    let mErr := Message.new .agentFinal (.err e) none (some sid) r.2.2
    (r.1 ++ [mErr.1], none, mErr.2)

/-- A terminal error envelope: `AGENT_FINAL` type with an `{"error": ...}`
payload. -/
def isErrorEnvelope (m : Message) : Bool :=
  m.type == MessageType.agentFinal &&
    match m.data with | .err _ => true | _ => false

/-- Type sequence of a list of envelopes. -/
def eventTypes (ms : List Message) : List MessageType :=
  ms.map Message.type

/-- The event-sequence shape claimed in the spec:
`UpdateInProgress, AgentPartial*, AgentFinal, UpdateFile*, UpdateCompleted`,
with `AgentFinal` and `UpdateCompleted` occurring exactly once and
`UpdateCompleted` last. -/
def shapeOk (l : List MessageType) : Prop :=
  ∃ a f, (∀ x ∈ a, x = MessageType.agentDelta) ∧
    (∀ x ∈ f, x = MessageType.updateFile) ∧
    l = MessageType.updateInProgress ::
      (a ++ MessageType.agentFinal :: (f ++ [MessageType.updateCompleted]))

/-- A concrete uuid supply for concrete evaluations: pairwise distinct,
nonempty strings, none of which is the one-character session id used in the
witnesses. -/
def g0 : Gen :=
  { uuid := fun n => String.mk (List.replicate (n + 1) 'u'), next := 0, now := 0 }

/-! ### Session registry (`Agent.init` / `Agent.create_app_environment`) -/

/-- The dict returned by `DockerSandboxManager.create_sandbox` /
`connect_sandbox` and stored in `Agent.session_data`. -/
structure SandboxData where
  sandbox_id : String
  session_id : String
  url : String
  port : String
  status : String
deriving DecidableEq, Repr

/-- The `ProjectSession` database row fields the agent reads and writes. -/
structure DbSession where
  sandbox_id : Option String
  sandbox_url : Option String
  status : String
deriving DecidableEq, Repr

/-- The agent's mutable state: the in-memory `session_data` dict and the
`project_sessions` table, both as association lists keyed by session id. -/
structure AgentState where
  session_data : List (String × SandboxData)
  db : List (String × DbSession)
deriving DecidableEq, Repr

/-- Python dict assignment `m[k] = v`: replace in place if the key exists,
else append (dicts preserve insertion order). -/
def dictInsert {α : Type} (m : List (String × α)) (k : String) (v : α) :
    List (String × α) :=
  if (m.lookup k).isSome then
    m.map (fun e => if e.1 = k then (k, v) else e)
  else m ++ [(k, v)]

/-- Model of `DatabaseManager.update_project_session`: applies the field updates only
when a row for the session exists, otherwise does nothing. -/
def db_update (db : List (String × DbSession)) (sid : String)
    (f : DbSession → DbSession) : List (String × DbSession) :=
  db.map (fun e => if e.1 = sid then (e.1, f e.2) else e)

/-- Python truthiness of the `db_session.sandbox_id` string column:
`None` and the empty string are falsy. -/
def truthyOpt : Option String → Bool
  | some s => s ≠ ""
  | none => false

/-- The create branch of `create_app_environment`: on success store the new
sandbox data in `session_data`, record `(sandbox_id, url, "active")` in the
database row (if one exists), and return `False`; on failure re-raise. -/
def create_branch (createRes : Except Unit SandboxData) (st : AgentState)
    (sid : String) : Except Unit (Bool × AgentState) :=
  match createRes with
  | .ok d =>
    .ok (false,
      { session_data := dictInsert st.session_data sid d,
        db := db_update st.db sid (fun ds =>
          { ds with sandbox_id := some d.sandbox_id,
                    sandbox_url := some d.url,
                    status := "active" }) })
  | .error e => .error e

/-- Model of `Agent.create_app_environment`: a session already in `session_data`
returns `True` untouched; otherwise, if the database row carries a truthy
`sandbox_id`, try to reconnect (returning `True` on success) and fall back to
the create branch when the connect attempt raises; with no usable row, create
directly.  `connectRes`/`createRes` are the outcomes the sandbox tools would
produce if called. -/
def create_app_environment (connectRes createRes : Except Unit SandboxData)
    (st : AgentState) (sid : String) : Except Unit (Bool × AgentState) :=
  if (st.session_data.lookup sid).isSome then
    .ok (true, st)
  else
    match st.db.lookup sid with
    | some ds =>
      if truthyOpt ds.sandbox_id then
        match connectRes with
        | .ok d =>
          .ok (true, { st with session_data := dictInsert st.session_data sid d })
        | .error _ => create_branch createRes st sid
      else create_branch createRes st sid
    | none => create_branch createRes st sid

/-- Model of `Agent.init`: run `create_app_environment`, then create the database row
(status defaults to `"created"`, no sandbox columns) if none exists, and
return the `exists` flag. -/
def agent_init (connectRes createRes : Except Unit SandboxData)
    (st : AgentState) (sid : String) : Except Unit (Bool × AgentState) :=
  match create_app_environment connectRes createRes st sid with
  | .error e => .error e
  | .ok r =>
    match r.2.db.lookup sid with
    | some _ => .ok r
    | none =>
      .ok (r.1, { r.2 with
        db := r.2.db ++ [(sid, { sandbox_id := none, sandbox_url := none,
                                 status := "created" })] })

/-! ### Port allocation and container naming (`sandbox_manager.py`) -/

/-- Model of `DockerSandboxManager._get_next_port`: starting from the candidate
counter, take a candidate, advance the counter, and commit the first
candidate the OS-level probe reports available.  `avail` is the probe
(`_is_port_available`); the hypothesis states the loop terminates, i.e. some
port at or above the counter is available.  Returns the committed port and
the new counter value. -/
def get_next_port (avail : Nat → Bool) (next : Nat)
    (h : ∃ k, avail (next + k) = true) : Nat × Nat :=
  (next + Nat.find h, next + Nat.find h + 1)

/-- Ports assigned by `n` successive `create_sandbox` calls on one manager
instance, threading the candidate counter. -/
def alloc_ports (avail : Nat → Bool) (hav : ∀ m, ∃ k, avail (m + k) = true) :
    Nat → Nat → List Nat
  | _, 0 => []
  | next, n + 1 =>
    (get_next_port avail next (hav next)).1 ::
      alloc_ports avail hav (get_next_port avail next (hav next)).2 n

/-- Decimal rendering of the integer creation timestamp, as the f-string
`f"sandbox-{session_id}-{timestamp}"` renders `int(time.time())`. -/
def decRepr (t : Nat) : String :=
  if t = 0 then "0" else ⟨((Nat.digits 10 t).map Nat.digitChar).reverse⟩

/-- Numeric value of a decimal digit character (inverse of the rendering). -/
def charVal (c : Char) : Nat := c.toNat - 48

/-- Parse a decimal string back to a number; used to invert `decRepr`. -/
def decVal (s : String) : Nat := Nat.ofDigits 10 (s.data.reverse.map charVal)

/-- The container name derived by `create_sandbox`:
`f"sandbox-{session_id}-{timestamp}"` with `timestamp = int(time.time())`
(whole seconds). -/
def container_name (sid : String) (timestamp : Nat) : String :=
  "sandbox-" ++ sid ++ "-" ++ decRepr timestamp

/-! ### `SandboxTools.load_code` (`tools.py`) -/

/-- Constant `DEFAULT_CODE_PATH` from `tools.py`. -/
def DEFAULT_CODE_PATH : String := "/app/src"

/-- Constant `DEFAULT_PROJECT_ROOT` from `tools.py`. -/
def DEFAULT_PROJECT_ROOT : String := "/app"

/-- The hard-coded candidate file list of `SandboxTools._collect_files`. -/
def common_files : List String :=
  [DEFAULT_CODE_PATH ++ "/App.tsx",
   DEFAULT_CODE_PATH ++ "/App.css",
   DEFAULT_CODE_PATH ++ "/main.tsx",
   DEFAULT_CODE_PATH ++ "/index.css",
   DEFAULT_CODE_PATH ++ "/vite-env.d.ts",
   DEFAULT_CODE_PATH ++ "/components/ui/button.tsx",
   DEFAULT_CODE_PATH ++ "/components/ui/input.tsx",
   DEFAULT_CODE_PATH ++ "/components/ui/textarea.tsx",
   DEFAULT_CODE_PATH ++ "/lib/utils.ts"]

/-- Strict UTF-8 decoding of a byte sequence to the list of code points, as
Python's `bytes.decode('utf-8')`: rejects stray continuation bytes, overlong
encodings (C0/C1, E0 A0-, F0 90-), surrogates (ED 80-9F only) and code
points above U+10FFFF (F4 80-8F only); `none` is `UnicodeDecodeError`. -/
def utf8DecodeList : List Nat → Option (List Nat)
  | [] => some []
  | b0 :: rest =>
    if b0 < 0x80 then (utf8DecodeList rest).map (b0 :: ·)
    else if b0 < 0xC2 then none
    else if b0 ≤ 0xDF then
      match rest with
      | b1 :: rest2 =>
        if 0x80 ≤ b1 ∧ b1 ≤ 0xBF then
          (utf8DecodeList rest2).map (fun cs => ((b0 - 0xC0) * 64 + (b1 - 0x80)) :: cs)
        else none
      | [] => none
    else if b0 ≤ 0xEF then
      match rest with
      | b1 :: b2 :: rest3 =>
        if (if b0 = 0xE0 then 0xA0 else 0x80) ≤ b1 ∧
            b1 ≤ (if b0 = 0xED then 0x9F else 0xBF) ∧
            0x80 ≤ b2 ∧ b2 ≤ 0xBF then
          (utf8DecodeList rest3).map
            (fun cs => ((b0 - 0xE0) * 4096 + (b1 - 0x80) * 64 + (b2 - 0x80)) :: cs)
        else none
      | _ => none
    else if b0 ≤ 0xF4 then
      match rest with
      | b1 :: b2 :: b3 :: rest4 =>
        if (if b0 = 0xF0 then 0x90 else 0x80) ≤ b1 ∧
            b1 ≤ (if b0 = 0xF4 then 0x8F else 0xBF) ∧
            0x80 ≤ b2 ∧ b2 ≤ 0xBF ∧ 0x80 ≤ b3 ∧ b3 ≤ 0xBF then
          (utf8DecodeList rest4).map
            (fun cs => ((b0 - 0xF0) * 262144 + (b1 - 0x80) * 4096 +
              (b2 - 0x80) * 64 + (b3 - 0x80)) :: cs)
        else none
      | _ => none
    else none

/-- Model of `bytes.decode('utf-8')` producing a string. -/
def utf8Decode (bytes : List Nat) : Option String :=
  (utf8DecodeList bytes).map (fun cps => ⟨cps.map Char.ofNat⟩)

/-- Model of `DockerSandboxManager.download_files`: best effort — each requested path
present in the sandbox contributes its bytes, failing paths are omitted.
`fs` maps a path to its downloadable bytes. -/
def download_files (fs : String → Option (List Nat)) (paths : List String) :
    List (String × List Nat) :=
  paths.filterMap (fun p => (fs p).map (fun b => (p, b)))

/-- The default manifest returned when the sandbox has no `package.json`
(`json.dumps(default_package, indent=2)` from `tools.py`). -/
def default_package_json : String :=
  "\x7b\n  \"name\": \"react-app\",\n  \"version\": \"0.1.0\",\n  \"type\": \"module\",\n  \"scripts\": \x7b\n    \"dev\": \"vite\",\n    \"build\": \"vite build\",\n    \"preview\": \"vite preview\"\n  \x7d,\n  \"dependencies\": \x7b\n    \"@hookform/resolvers\": \"^5.2.2\",\n    \"@tanstack/react-query\": \"^5.87.4\",\n    \"date-fns\": \"^4.1.0\",\n    \"react\": \"^18.2.0\",\n    \"react-dom\": \"^18.2.0\",\n    \"react-hook-form\": \"^7.62.0\",\n    \"react-router-dom\": \"^7.9.1\",\n    \"recharts\": \"^3.2.0\",\n    \"sonner\": \"^2.0.7\",\n    \"uuid\": \"^13.0.0\",\n    \"zod\": \"^4.1.8\"\n  \x7d\n\x7d"

/-- Model of `SandboxTools.load_code`: download the nine candidate source files,
decode each to UTF-8 keeping only the ones that decode (binary files are
skipped with a warning), then download `/app/package.json`; if present its
decode error is *not* caught (the call raises), if absent the default
manifest is substituted.  Returns the code map and the manifest text. -/
def load_code (fs : String → Option (List Nat)) :
    Except Unit (List (String × String) × String) :=
  let file_map := (download_files fs common_files).filterMap
    (fun pc => (utf8Decode pc.2).map (fun s => (pc.1, s)))
  match fs (DEFAULT_PROJECT_ROOT ++ "/package.json") with
  | some b =>
    match utf8Decode b with
    | some s => .ok (file_map, s)
    | none => .error ()
  | none => .ok (file_map, default_package_json)

/-! ### Concrete fixtures used by counterexamples and witnesses -/

/-- A stream that reports the same path twice within one turn, with the later
snapshot carrying the grown (cumulative) content. -/
def snapsTwice : List Snapshot :=
  [⟨"Complete", "Add a hello header", [⟨"/app/src/App.tsx", "<h1>"⟩]⟩,
   ⟨"Complete", "Add a hello header", [⟨"/app/src/App.tsx", "<h1>Hello</h1>"⟩]⟩]

/-- A stream whose only snapshot carries a file while its plan is still
incomplete, and that never reaches a `Complete` plan state. -/
def snapsNoFinal : List Snapshot :=
  [⟨"Streaming", "draft plan", [⟨"/app/src/App.tsx", "x"⟩]⟩]

/-- An incomplete-plan snapshot carrying no files (witness fixture). -/
def snapPre : Snapshot := ⟨"Streaming", "Adding a head", []⟩

/-- A complete-plan snapshot carrying two files (witness fixture). -/
def snapDone : Snapshot :=
  ⟨"Complete", "Added a header", [⟨"/app/src/App.tsx", "<header/>"⟩,
                                  ⟨"/app/src/App.css", ".h color red"⟩]⟩

/-- Sandbox data returned by a successful (modelled) `create_sandbox` call. -/
def sbNew : SandboxData :=
  { sandbox_id := "c9f2", session_id := "s", url := "http://localhost:3100",
    port := "3100", status := "ready" }

/-- A persisted database row pointing at a sandbox that no longer exists. -/
def dbStale : DbSession :=
  { sandbox_id := some "dead01", sandbox_url := some "http://localhost:3099",
    status := "active" }

/-- Agent state whose database knows the session but whose sandbox is gone. -/
def stStale : AgentState :=
  { session_data := [], db := [("s", dbStale)] }

/-- Agent state reached by a first successful `init` of session `"s"` on an
empty state (connect not attempted, create succeeded). -/
def stAfterInit : AgentState :=
  { session_data := [("s", sbNew)],
    db := [("s", { sandbox_id := none, sandbox_url := none, status := "created" })] }

/-- OS port probe for the port-allocator witness: everything at or below 3101
(the ports of live sandboxes) is taken, everything above is free. -/
def availW : Nat → Bool := fun p => decide (3101 < p)

/-- Sandbox filesystem for the `load_code` witness: one decodable source
file, one binary (non-UTF-8) source file, one file outside the candidate
list, and no `package.json`. -/
def fsW : String → Option (List Nat) := fun p =>
  if p = "/app/src/App.tsx" then some [104, 105]
  else if p = "/app/src/App.css" then some [255]
  else if p = "/app/src/rogue.ts" then some [65]
  else none

/-! ## Port allocator (claim C7) -/

theorem availW_total : ∀ m, ∃ k, availW (m + k) = true := by
  intro m
  refine ⟨3102, ?_⟩
  simp only [availW, decide_eq_true_eq]
  omega

theorem get_next_port_avail (avail : Nat → Bool) (next : Nat)
    (h : ∃ k, avail (next + k) = true) :
    avail (get_next_port avail next h).1 = true :=
  Nat.find_spec h

theorem get_next_port_ge (avail : Nat → Bool) (next : Nat)
    (h : ∃ k, avail (next + k) = true) :
    next ≤ (get_next_port avail next h).1 :=
  Nat.le_add_right _ _

theorem get_next_port_counter (avail : Nat → Bool) (next : Nat)
    (h : ∃ k, avail (next + k) = true) :
    (get_next_port avail next h).2 = (get_next_port avail next h).1 + 1 :=
  rfl

theorem alloc_ports_ge (avail : Nat → Bool) (hav : ∀ m, ∃ k, avail (m + k) = true) :
    ∀ (n next : Nat), ∀ p ∈ alloc_ports avail hav next n, next ≤ p := by
  intro n
  induction n with
  | zero => intro next p hp; simp [alloc_ports] at hp
  | succ n ih =>
    intro next p hp
    rcases List.mem_cons.mp hp with h | h
    · exact h ▸ get_next_port_ge avail next (hav next)
    · have h2 := ih _ p h
      have h3 := get_next_port_ge avail next (hav next)
      rw [get_next_port_counter] at h2
      omega

theorem alloc_ports_avail (avail : Nat → Bool) (hav : ∀ m, ∃ k, avail (m + k) = true) :
    ∀ (n next : Nat), ∀ p ∈ alloc_ports avail hav next n, avail p = true := by
  intro n
  induction n with
  | zero => intro next p hp; simp [alloc_ports] at hp
  | succ n ih =>
    intro next p hp
    rcases List.mem_cons.mp hp with h | h
    · exact h ▸ get_next_port_avail avail next (hav next)
    · exact ih _ p h

theorem alloc_ports_pairwise (avail : Nat → Bool)
    (hav : ∀ m, ∃ k, avail (m + k) = true) :
    ∀ (n next : Nat), (alloc_ports avail hav next n).Pairwise (· < ·) := by
  intro n
  induction n with
  | zero => intro next; simp [alloc_ports]
  | succ n ih =>
    intro next
    rw [alloc_ports]
    refine List.pairwise_cons.mpr ⟨?_, ih _⟩
    intro p hp
    have h2 := alloc_ports_ge avail hav n _ p hp
    rw [get_next_port_counter] at h2
    omega

/-- Claim C7: over any number of `create_sandbox` calls on one manager
instance, the assigned ports are pairwise distinct, every assigned port
passed the OS availability probe, and (since a port bound to a live sandbox
fails the probe) no assigned port coincides with a live sandbox's port. -/
theorem port_allocator (avail : Nat → Bool)
    (hav : ∀ m, ∃ k, avail (m + k) = true)
    (live : List Nat) (hlive : ∀ q ∈ live, avail q = false) (next n : Nat) :
    (alloc_ports avail hav next n).Pairwise (· ≠ ·) ∧
    ∀ p ∈ alloc_ports avail hav next n, avail p = true ∧ p ∉ live := by
  constructor
  · exact (alloc_ports_pairwise avail hav n next).imp Nat.ne_of_lt
  · intro p hp
    have h1 := alloc_ports_avail avail hav n next p hp
    refine ⟨h1, fun hmem => ?_⟩
    rw [hlive p hmem] at h1
    exact Bool.false_ne_true h1

/-- Witness for C7: ports 3100 and 3101 belong to live sandboxes (probe says
taken); two allocations starting from counter 3100 yield distinct, available,
non-colliding ports. -/
theorem port_allocator_witness :
    (∀ q ∈ [3100, 3101], availW q = false) ∧
    ((alloc_ports availW availW_total 3100 2).Pairwise (· ≠ ·) ∧
      ∀ p ∈ alloc_ports availW availW_total 3100 2,
        availW p = true ∧ p ∉ [3100, 3101]) :=
  ⟨by decide, port_allocator availW availW_total [3100, 3101] (by decide) 3100 2⟩

/-! ## Container naming (claim C8) -/

theorem charVal_digitChar : ∀ d, d < 10 → charVal (Nat.digitChar d) = d := by
  decide

theorem decVal_decRepr (t : Nat) : decVal (decRepr t) = t := by
  by_cases h : t = 0
  · subst h; decide
  · rw [decRepr, if_neg h, decVal]
    show Nat.ofDigits 10
      ((((Nat.digits 10 t).map Nat.digitChar).reverse).reverse.map charVal) = t
    rw [List.reverse_reverse, List.map_map]
    have : (Nat.digits 10 t).map (charVal ∘ Nat.digitChar) = Nat.digits 10 t := by
      apply List.map_congr_left ?_ |>.trans (List.map_id _)
      intro d hd
      exact charVal_digitChar d (Nat.digits_lt_base (by norm_num) hd)
    rw [this, Nat.ofDigits_digits]

theorem string_data_append (a b : String) : (a ++ b).data = a.data ++ b.data := rfl

/-- Claim C8 counterexample: two `create_sandbox` calls for session `"s"`
within the same clock second (`int(time.time())` equal) derive the *same*
container name, so the derived names of two create calls are not always
pairwise distinct. -/
theorem container_name_collision :
    ¬ (([1759363200, 1759363200].map (container_name "s")).Pairwise (· ≠ ·)) := by
  intro h
  rw [List.map_cons, List.map_cons, List.map_nil] at h
  exact (List.pairwise_cons.mp h).1 _ (List.mem_cons_self _ _) rfl

/-- Claim C8 (amended): two `create_sandbox` calls for the same session whose
creation timestamps differ derive distinct container names. -/
theorem container_name_distinct_timestamps (sid : String) (t1 t2 : Nat)
    (h : t1 ≠ t2) : container_name sid t1 ≠ container_name sid t2 := by
  intro heq
  apply h
  have hd := congrArg String.data heq
  simp only [container_name, string_data_append, List.append_assoc] at hd
  have hd2 := List.append_cancel_left (List.append_cancel_left
    (List.append_cancel_left hd))
  have : decVal (decRepr t1) = decVal (decRepr t2) := by
    simp only [decVal, hd2]
  rwa [decVal_decRepr, decVal_decRepr] at this

/-- Witness for C8 (amended): timestamps one second apart give different
container names for the same session. -/
theorem container_name_distinct_timestamps_witness :
    (1759363200 : Nat) ≠ 1759363201 ∧
      container_name "s" 1759363200 ≠ container_name "s" 1759363201 :=
  ⟨by decide, container_name_distinct_timestamps "s" 1759363200 1759363201 (by decide)⟩

/-! ## Session registry (claims C4 and C5) -/

theorem lookup_replace {α : Type} (m : List (String × α)) (k : String) (v : α) :
    (m.map (fun e => if e.1 = k then (k, v) else e)).lookup k =
      if (m.lookup k).isSome then some v else none := by
  induction m with
  | nil => simp
  | cons e m ih =>
    obtain ⟨k1, v1⟩ := e
    by_cases h : k1 = k
    · subst h
      rw [List.map_cons]
      have hf : (if (k1, v1).1 = k1 then (k1, v) else (k1, v1)) = (k1, v) := by
        simp
      rw [hf, List.lookup, List.lookup]
      simp
    · have hf : (if (k1, v1).1 = k then (k, v) else (k1, v1)) = (k1, v1) := by
        simp [h]
      rw [List.map_cons, hf, List.lookup, List.lookup]
      have hbeq : (k == k1) = false := by
        simp only [beq_eq_false_iff_ne, ne_eq]
        exact fun hh => h hh.symm
      simp only [hbeq, ih]

theorem lookup_append_none {α : Type} (m1 m2 : List (String × α)) (k : String)
    (h : m1.lookup k = none) : (m1 ++ m2).lookup k = m2.lookup k := by
  induction m1 with
  | nil => simp
  | cons e m1 ih =>
    rw [List.cons_append, List.lookup]
    rw [List.lookup] at h
    cases hbeq : k == e.1 with
    | true => rw [hbeq] at h; simp at h
    | false => rw [hbeq] at h; exact ih h

theorem lookup_dictInsert {α : Type} (m : List (String × α)) (k : String) (v : α) :
    (dictInsert m k v).lookup k = some v := by
  rw [dictInsert]
  split
  · rw [lookup_replace]; simp [*]
  · rename_i h
    rw [lookup_append_none m _ k (by cases hm : m.lookup k; rfl; simp [hm] at h)]
    simp [List.lookup]

theorem lookup_db_update (db : List (String × DbSession)) (sid : String)
    (f : DbSession → DbSession) :
    (db_update db sid f).lookup sid = (db.lookup sid).map f := by
  induction db with
  | nil => simp [db_update]
  | cons e db ih =>
    obtain ⟨k1, v1⟩ := e
    by_cases h : k1 = sid
    · subst h
      rw [db_update, List.map_cons]
      have hf : (if (k1, v1).1 = k1 then ((k1, v1).1, f (k1, v1).2) else (k1, v1)) =
          (k1, f v1) := by simp
      rw [hf, List.lookup, List.lookup]
      simp
    · have hf : (if (k1, v1).1 = sid then ((k1, v1).1, f (k1, v1).2) else (k1, v1)) =
        (k1, v1) := by simp [h]
      rw [db_update, List.map_cons, hf, List.lookup, List.lookup]
      have hbeq : (sid == k1) = false := by
        simp only [beq_eq_false_iff_ne, ne_eq]
        exact fun hh => h hh.symm
      simp only [hbeq]
      exact ih

theorem create_branch_ok (createRes : Except Unit SandboxData) (st : AgentState)
    (sid : String) (b : Bool) (st' : AgentState)
    (h : create_branch createRes st sid = .ok (b, st')) :
    (st'.session_data.lookup sid).isSome ∧
      ((st'.db.lookup sid).isSome ↔ (st.db.lookup sid).isSome) := by
  match createRes with
  | .ok d =>
    rw [create_branch] at h
    simp only [Except.ok.injEq, Prod.mk.injEq] at h
    rw [← h.2]
    refine ⟨by simp [lookup_dictInsert], ?_⟩
    simp only [lookup_db_update]
    cases st.db.lookup sid <;> simp
  | .error e => rw [create_branch] at h; simp at h

theorem create_app_environment_ok (connectRes createRes : Except Unit SandboxData)
    (st : AgentState) (sid : String) (b : Bool) (st' : AgentState)
    (h : create_app_environment connectRes createRes st sid = .ok (b, st')) :
    (st'.session_data.lookup sid).isSome ∧
      ((st'.db.lookup sid).isSome ↔ (st.db.lookup sid).isSome) := by
  rw [create_app_environment.eq_def] at h
  split at h
  · rename_i hin
    simp only [Except.ok.injEq, Prod.mk.injEq] at h
    rw [← h.2]
    exact ⟨hin, Iff.rfl⟩
  · split at h
    · split at h
      · split at h
        · rename_i hds _ d _
          simp only [Except.ok.injEq, Prod.mk.injEq] at h
          rw [← h.2]
          exact ⟨by simp [lookup_dictInsert], Iff.rfl⟩
        · exact create_branch_ok _ _ _ _ _ h
      · exact create_branch_ok _ _ _ _ _ h
    · exact create_branch_ok _ _ _ _ _ h

theorem agent_init_ok (connectRes createRes : Except Unit SandboxData)
    (st : AgentState) (sid : String) (b : Bool) (st' : AgentState)
    (h : agent_init connectRes createRes st sid = .ok (b, st')) :
    (st'.session_data.lookup sid).isSome ∧ (st'.db.lookup sid).isSome := by
  rw [agent_init.eq_def] at h
  split at h
  · simp at h
  · rename_i r hr
    obtain ⟨hsd, hdb⟩ := create_app_environment_ok _ _ _ _ _ _ hr
    split at h
    · rename_i ds hds
      simp only [Except.ok.injEq] at h
      have : r = (b, st') := by rw [← h]
      subst this
      exact ⟨hsd, by simp [hds]⟩
    · rename_i hds
      simp only [Except.ok.injEq, Prod.mk.injEq] at h
      obtain ⟨h1, h2⟩ := h
      rw [← h2]
      refine ⟨hsd, ?_⟩
      rw [lookup_append_none _ _ _ hds]
      simp [List.lookup]

/-- Claim C5: once a session's binding is active (a first `init` succeeded),
any further `init` — whatever its connect/create collaborators would return —
returns `preexisting = true` and leaves the whole agent state (in-memory
binding and database row) unchanged. -/
theorem init_idempotent (c1 k1 c2 k2 : Except Unit SandboxData)
    (st : AgentState) (sid : String) (b : Bool) (st' : AgentState)
    (h : agent_init c1 k1 st sid = .ok (b, st')) :
    agent_init c2 k2 st' sid = .ok (true, st') := by
  obtain ⟨h1, h2⟩ := agent_init_ok _ _ _ _ _ _ h
  have hc : create_app_environment c2 k2 st' sid = .ok (true, st') := by
    rw [create_app_environment.eq_def, if_pos h1]
  obtain ⟨ds, hds⟩ := Option.isSome_iff_exists.mp h2
  rw [agent_init.eq_def, hc]
  simp only [hds]

/-- Witness for C5: a first `init` of session `"s"` on an empty registry
creates the binding; a second `init` (even with failing collaborators)
returns `true` and changes nothing. -/
theorem init_idempotent_witness :
    agent_init (.error ()) (.ok sbNew) { session_data := [], db := [] } "s" =
       .ok (false, stAfterInit) ∧
    agent_init (.error ()) (.error ()) stAfterInit "s" = .ok (true, stAfterInit) :=
  ⟨by rfl, init_idempotent (.error ()) (.ok sbNew) (.error ()) (.error ())
    { session_data := [], db := [] } "s" false stAfterInit (by rfl)⟩

/-- Claim C4: for a session absent from the in-memory registry whose database
row records a (now dead) sandbox id, `init` catches the connect failure,
creates a fresh sandbox, stores it in `session_data`, and replaces the row's
binding with the new `sandbox_id`/`url` (status `active`) instead of
failing. -/
theorem reconnect_fallback (d : SandboxData) (st : AgentState) (sid : String)
    (ds : DbSession)
    (h1 : st.session_data.lookup sid = none)
    (h2 : st.db.lookup sid = some ds)
    (h3 : truthyOpt ds.sandbox_id = true) :
    ∃ st', agent_init (.error ()) (.ok d) st sid = .ok (false, st') ∧
      st'.session_data.lookup sid = some d ∧
      st'.db.lookup sid = some { ds with sandbox_id := some d.sandbox_id,
                                         sandbox_url := some d.url,
                                         status := "active" } := by
  have hc : create_app_environment (.error ()) (.ok d) st sid =
      create_branch (.ok d) st sid := by
    rw [create_app_environment.eq_def, if_neg (by simp [h1]), h2]
    simp
  refine ⟨{ session_data := dictInsert st.session_data sid d,
            db := db_update st.db sid (fun e =>
              { e with sandbox_id := some d.sandbox_id, sandbox_url := some d.url,
                       status := "active" }) }, ?_, ?_, ?_⟩
  · rw [agent_init.eq_def, hc, create_branch]
    simp only [lookup_db_update, h2, Option.map_some']
  · exact lookup_dictInsert _ _ _
  · simp only [lookup_db_update, h2, Option.map_some']

/-- Witness for C4: session `"s"` has a stale persisted binding; connect
fails, `init` succeeds by creating `sbNew` and rebinding. -/
theorem reconnect_fallback_witness :
    (stStale.session_data.lookup "s" = none ∧
      stStale.db.lookup "s" = some dbStale ∧ truthyOpt dbStale.sandbox_id = true) ∧
    (∃ st', agent_init (.error ()) (.ok sbNew) stStale "s" = .ok (false, st') ∧
      st'.session_data.lookup "s" = some sbNew ∧
      st'.db.lookup "s" = some { dbStale with sandbox_id := some sbNew.sandbox_id,
                                              sandbox_url := some sbNew.url,
                                              status := "active" }) :=
  ⟨⟨rfl, rfl, rfl⟩, reconnect_fallback sbNew stStale "s" dbStale rfl rfl rfl⟩

/-! ## Envelope field lemmas -/

theorem new_type (ty : MessageType) (d : MsgData) (i s : Option String) (g : Gen) :
    (Message.new ty d i s g).1.type = ty := rfl

theorem new_data (ty : MessageType) (d : MsgData) (i s : Option String) (g : Gen) :
    (Message.new ty d i s g).1.data = d := rfl

theorem new_sid (ty : MessageType) (d : MsgData) (i : Option String)
    (sid : String) (hs : sid ≠ "") (g : Gen) :
    (Message.new ty d i (some sid) g).1.session_id = sid := by
  simp [Message.new, orFresh, hs]

theorem new_id (ty : MessageType) (d : MsgData) (mid : String) (hm : mid ≠ "")
    (s : Option String) (g : Gen) :
    (Message.new ty d (some mid) s g).1.id = mid := by
  simp [Message.new, orFresh, hm]

/-! ## Event lemmas for the file loop -/

theorem processFiles_types (sid fileId : String) (g : Gen) (st : TurnState)
    (fl : List StreamFile) :
    ∀ m ∈ (processFiles sid fileId g st fl).1,
      m.type = .updateFile ∧ ∃ s, m.data = .text s := by
  induction fl generalizing g st with
  | nil => intro m hm; simp [processFiles] at hm
  | cons f fl ih =>
    intro m hm
    rw [processFiles] at hm
    split at hm
    · exact ih _ _ m hm
    · simp only [List.mem_cons] at hm
      rcases hm with h | h
      · subst h
        exact ⟨new_type _ _ _ _ _, _, new_data _ _ _ _ _⟩
      · exact ih _ _ m h

theorem processFiles_ids (sid fileId : String) (hs : sid ≠ "") (hf : fileId ≠ "")
    (g : Gen) (st : TurnState) (fl : List StreamFile) :
    ∀ m ∈ (processFiles sid fileId g st fl).1,
      m.id = fileId ∧ m.session_id = sid := by
  induction fl generalizing g st with
  | nil => intro m hm; simp [processFiles] at hm
  | cons f fl ih =>
    intro m hm
    rw [processFiles] at hm
    split at hm
    · exact ih _ _ m hm
    · simp only [List.mem_cons] at hm
      rcases hm with h | h
      · subst h
        exact ⟨new_id _ _ _ hf _ _, new_sid _ _ _ _ hs _⟩
      · exact ih _ _ m h

theorem processFiles_sent_plan (sid fileId : String) (g : Gen) (st : TurnState)
    (fl : List StreamFile) :
    (processFiles sid fileId g st fl).2.1.sent_plan = st.sent_plan := by
  induction fl generalizing g st with
  | nil => rw [processFiles]
  | cons f fl ih =>
    rw [processFiles]
    split
    · exact ih _ _
    · exact ih _ _

/-! ## Event lemmas for one snapshot -/

theorem processSnapshot_types (sid fb planId fileId : String) (g : Gen)
    (st : TurnState) (p : Snapshot) :
    ∀ m ∈ (processSnapshot sid fb planId fileId g st p).1,
      (m.type = .agentDelta ∨ m.type = .agentFinal ∨ m.type = .updateFile) ∧
      ∃ s, m.data = .text s := by
  intro m hm
  rw [processSnapshot] at hm
  simp only [List.mem_append] at hm
  rcases hm with (h | h) | h
  · split at h
    · simp only [List.mem_singleton] at h
      subst h
      exact ⟨Or.inl (new_type _ _ _ _ _), _, new_data _ _ _ _ _⟩
    · simp at h
  · split at h
    · simp only [List.mem_singleton] at h
      subst h
      exact ⟨Or.inr (Or.inl (new_type _ _ _ _ _)), _, new_data _ _ _ _ _⟩
    · simp at h
  · have := processFiles_types sid fileId _ _ p.files m h
    exact ⟨Or.inr (Or.inr this.1), this.2⟩

theorem processSnapshot_ids (sid fb planId fileId : String) (hs : sid ≠ "")
    (hp : planId ≠ "") (hf : fileId ≠ "") (g : Gen) (st : TurnState) (p : Snapshot) :
    ∀ m ∈ (processSnapshot sid fb planId fileId g st p).1,
      m.session_id = sid ∧
      (m.type = .updateFile → m.id = fileId) ∧
      (m.type ≠ .updateFile → m.id = planId) := by
  intro m hm
  rw [processSnapshot] at hm
  simp only [List.mem_append] at hm
  rcases hm with (h | h) | h
  · split at h
    · simp only [List.mem_singleton] at h
      subst h
      refine ⟨new_sid _ _ _ _ hs _, fun hty => ?_, fun _ => new_id _ _ _ hp _ _⟩
      rw [new_type] at hty
      exact absurd hty (by simp)
    · simp at h
  · split at h
    · simp only [List.mem_singleton] at h
      subst h
      refine ⟨new_sid _ _ _ _ hs _, fun hty => ?_, fun _ => new_id _ _ _ hp _ _⟩
      rw [new_type] at hty
      exact absurd hty (by simp)
    · simp at h
  · have h2 := processFiles_ids sid fileId hs hf _ _ p.files m h
    have h3 := processFiles_types sid fileId _ _ p.files m h
    exact ⟨h2.2, fun _ => h2.1, fun hty => absurd h3.1 hty⟩

theorem processSnapshot_pre (sid fb planId fileId : String) (g : Gen)
    (st : TurnState) (p : Snapshot) (hst : st.sent_plan = false)
    (hp1 : p.planState ≠ "Complete") (hp2 : p.files = []) :
    ∃ m g', processSnapshot sid fb planId fileId g st p = ([m], st, g') ∧
      m.type = .agentDelta := by
  rw [processSnapshot]
  rw [if_pos ⟨hp1, hst⟩, if_neg (by simp [hp1]), hp2]
  exact ⟨_, _, rfl, new_type _ _ _ _ _⟩

theorem processSnapshot_first_complete (sid fb planId fileId : String) (g : Gen)
    (st : TurnState) (p : Snapshot) (hst : st.sent_plan = false)
    (hpc : p.planState = "Complete") :
    ∃ mF fevs st' g',
      processSnapshot sid fb planId fileId g st p = (mF :: fevs, st', g') ∧
      mF.type = .agentFinal ∧ (∀ m ∈ fevs, m.type = .updateFile) ∧
      st'.sent_plan = true := by
  rw [processSnapshot]
  rw [if_neg (by simp [hpc]), if_pos ⟨hpc, hst⟩]
  refine ⟨_, _, _, _, rfl, new_type _ _ _ _ _, ?_, ?_⟩
  · intro m hm
    exact (processFiles_types sid fileId _ _ p.files m hm).1
  · rw [processFiles_sent_plan]

theorem processSnapshot_sent (sid fb planId fileId : String) (g : Gen)
    (st : TurnState) (p : Snapshot) (hst : st.sent_plan = true) :
    (∀ m ∈ (processSnapshot sid fb planId fileId g st p).1, m.type = .updateFile) ∧
    (processSnapshot sid fb planId fileId g st p).2.1.sent_plan = true := by
  rw [processSnapshot]
  rw [if_neg (by simp [hst]), if_neg (by simp [hst])]
  constructor
  · intro m hm
    simp only [List.nil_append] at hm
    exact (processFiles_types sid fileId _ _ p.files m hm).1
  · simp only []
    rw [processFiles_sent_plan]
    exact hst

/-! ## Event lemmas for the whole stream -/

theorem processStream_types (sid fb planId fileId : String) (ps : List Snapshot) :
    ∀ (g : Gen) (st : TurnState),
      ∀ m ∈ (processStream sid fb planId fileId g st ps).1,
        (m.type = .agentDelta ∨ m.type = .agentFinal ∨ m.type = .updateFile) ∧
        ∃ s, m.data = .text s := by
  induction ps with
  | nil => intro g st m hm; simp [processStream] at hm
  | cons p ps ih =>
    intro g st m hm
    rw [processStream] at hm
    simp only [List.mem_append] at hm
    rcases hm with h | h
    · exact processSnapshot_types sid fb planId fileId g st p m h
    · exact ih _ _ m h

theorem processStream_ids (sid fb planId fileId : String) (hs : sid ≠ "")
    (hp : planId ≠ "") (hf : fileId ≠ "") (ps : List Snapshot) :
    ∀ (g : Gen) (st : TurnState),
      ∀ m ∈ (processStream sid fb planId fileId g st ps).1,
        m.session_id = sid ∧
        (m.type = .updateFile → m.id = fileId) ∧
        (m.type ≠ .updateFile → m.id = planId) := by
  induction ps with
  | nil => intro g st m hm; simp [processStream] at hm
  | cons p ps ih =>
    intro g st m hm
    rw [processStream] at hm
    simp only [List.mem_append] at hm
    rcases hm with h | h
    · exact processSnapshot_ids sid fb planId fileId hs hp hf g st p m h
    · exact ih _ _ m h

theorem processStream_pre (sid fb planId fileId : String) (ps : List Snapshot)
    (hpre : ∀ p ∈ ps, p.planState ≠ "Complete" ∧ p.files = []) :
    ∀ (g : Gen) (st : TurnState), st.sent_plan = false →
      (∀ m ∈ (processStream sid fb planId fileId g st ps).1,
        m.type = .agentDelta) ∧
      (processStream sid fb planId fileId g st ps).2.1 = st := by
  induction ps with
  | nil => intro g st _; refine ⟨fun m hm => ?_, rfl⟩; simp [processStream] at hm
  | cons p ps ih =>
    intro g st hst
    obtain ⟨hp1, hp2⟩ := hpre p (List.mem_cons_self p ps)
    obtain ⟨m, g', heq, hty⟩ :=
      processSnapshot_pre sid fb planId fileId g st p hst hp1 hp2
    have ihall := ih (fun q hq => hpre q (List.mem_cons_of_mem p hq)) g' st hst
    rw [processStream, heq]
    refine ⟨fun x hx => ?_, ihall.2⟩
    simp only [List.mem_append, List.mem_singleton] at hx
    rcases hx with h | h
    · exact h ▸ hty
    · exact ihall.1 x h

theorem processStream_sent (sid fb planId fileId : String) (ps : List Snapshot) :
    ∀ (g : Gen) (st : TurnState), st.sent_plan = true →
      ∀ m ∈ (processStream sid fb planId fileId g st ps).1,
        m.type = .updateFile := by
  induction ps with
  | nil => intro g st _ m hm; simp [processStream] at hm
  | cons p ps ih =>
    intro g st hst m hm
    obtain ⟨hall, hstate⟩ := processSnapshot_sent sid fb planId fileId g st p hst
    rw [processStream] at hm
    simp only [List.mem_append] at hm
    rcases hm with h | h
    · exact hall m h
    · exact ih _ _ hstate m h

theorem processFiles_sids (sid fileId : String) (hs : sid ≠ "") (g : Gen)
    (st : TurnState) (fl : List StreamFile) :
    ∀ m ∈ (processFiles sid fileId g st fl).1, m.session_id = sid := by
  induction fl generalizing g st with
  | nil => intro m hm; simp [processFiles] at hm
  | cons f fl ih =>
    intro m hm
    rw [processFiles] at hm
    split at hm
    · exact ih _ _ m hm
    · simp only [List.mem_cons] at hm
      rcases hm with h | h
      · subst h
        exact new_sid _ _ _ _ hs _
      · exact ih _ _ m h

theorem processSnapshot_sids (sid fb planId fileId : String) (hs : sid ≠ "")
    (g : Gen) (st : TurnState) (p : Snapshot) :
    ∀ m ∈ (processSnapshot sid fb planId fileId g st p).1, m.session_id = sid := by
  intro m hm
  rw [processSnapshot] at hm
  simp only [List.mem_append] at hm
  rcases hm with (h | h) | h
  · split at h
    · simp only [List.mem_singleton] at h
      subst h
      exact new_sid _ _ _ _ hs _
    · simp at h
  · split at h
    · simp only [List.mem_singleton] at h
      subst h
      exact new_sid _ _ _ _ hs _
    · simp at h
  · exact processFiles_sids sid fileId hs _ _ p.files m h

theorem processStream_sids (sid fb planId fileId : String) (hs : sid ≠ "")
    (ps : List Snapshot) :
    ∀ (g : Gen) (st : TurnState),
      ∀ m ∈ (processStream sid fb planId fileId g st ps).1,
        m.session_id = sid := by
  induction ps with
  | nil => intro g st m hm; simp [processStream] at hm
  | cons p ps ih =>
    intro g st m hm
    rw [processStream] at hm
    simp only [List.mem_append] at hm
    rcases hm with h | h
    · exact processSnapshot_sids sid fb planId fileId hs g st p m h
    · exact ih _ _ m h

theorem processStream_append (sid fb planId fileId : String)
    (l1 l2 : List Snapshot) :
    ∀ (g : Gen) (st : TurnState),
      processStream sid fb planId fileId g st (l1 ++ l2) =
        ((processStream sid fb planId fileId g st l1).1 ++
          (processStream sid fb planId fileId
            (processStream sid fb planId fileId g st l1).2.2
            (processStream sid fb planId fileId g st l1).2.1 l2).1,
         (processStream sid fb planId fileId
            (processStream sid fb planId fileId g st l1).2.2
            (processStream sid fb planId fileId g st l1).2.1 l2).2) := by
  induction l1 with
  | nil => intro g st; simp [processStream]
  | cons p l1 ih =>
    intro g st
    rw [List.cons_append, processStream, processStream, ih]
    simp [List.append_assoc]

/-! ## Definitional decompositions of one turn -/

theorem send_feedback_core_events (sid fb : String) (hist : List (String × String))
    (snaps : List Snapshot) (g : Gen) :
    (send_feedback_core sid fb hist snaps g).1 =
      (Message.new .updateInProgress .empty none none g).1 ::
        (processStream sid fb (g.uuid (g.next + 2)) (g.uuid (g.next + 3))
          { uuid := g.uuid, next := g.next + 4, now := g.now }
          { sent_plan := false, new_code_map := [], history := hist } snaps).1 := rfl

theorem send_feedback_core_gen (sid fb : String) (hist : List (String × String))
    (snaps : List Snapshot) (g : Gen) :
    (send_feedback_core sid fb hist snaps g).2.2 =
      (processStream sid fb (g.uuid (g.next + 2)) (g.uuid (g.next + 3))
        { uuid := g.uuid, next := g.next + 4, now := g.now }
        { sent_plan := false, new_code_map := [], history := hist } snaps).2.2 := rfl

theorem send_feedback_ok_events (sid fb : String) (hist : List (String × String))
    (snaps : List Snapshot) (g : Gen) :
    (send_feedback_ok sid fb hist snaps g).1 =
      (Message.new .updateInProgress .empty none none g).1 ::
        ((processStream sid fb (g.uuid (g.next + 2)) (g.uuid (g.next + 3))
            { uuid := g.uuid, next := g.next + 4, now := g.now }
            { sent_plan := false, new_code_map := [], history := hist } snaps).1 ++
          [(Message.new .updateCompleted .empty none (some sid)
              (send_feedback_core sid fb hist snaps g).2.2).1]) := rfl

theorem websocket_user_turn_fail (sid fb e : String) (hist : List (String × String))
    (yielded : List Snapshot) (g : Gen) :
    websocket_user_turn sid fb hist (.failAfter yielded e) g =
      ((send_feedback_core sid fb hist yielded g).1 ++
        [(Message.new .agentFinal (.err e) none (some sid)
            (send_feedback_core sid fb hist yielded g).2.2).1],
       none,
       (Message.new .agentFinal (.err e) none (some sid)
          (send_feedback_core sid fb hist yielded g).2.2).2) := rfl

/-! ## Claim C1: repeated paths within one turn -/

/-- Claim C1 evaluated at the failing input: the stream reports
`/app/src/App.tsx` first with content `"<h1>"`, then with the grown content
`"<h1>Hello</h1>"`.  Exactly one `UpdateFile` envelope is emitted (that part
of the claim holds), but the committed content is the one carried by the
*first* sighting, not the last: the accumulator write sits inside the
first-sighting branch, so later snapshots never supersede it. -/
theorem first_write_wins_at_failing_input :
    ((send_feedback_ok "s" "make a header" [] snapsTwice g0).2.1.lookup
        "/app/src/App.tsx" = some "<h1>") ∧
    ((send_feedback_ok "s" "make a header" [] snapsTwice g0).2.1.lookup
        "/app/src/App.tsx" ≠ some "<h1>Hello</h1>") ∧
    (((send_feedback_ok "s" "make a header" [] snapsTwice g0).1.filter
        (fun m => m.type == MessageType.updateFile)).length = 1) := by
  refine ⟨rfl, ?_, rfl⟩
  intro hcontra
  rw [show (send_feedback_ok "s" "make a header" [] snapsTwice g0).2.1.lookup
      "/app/src/App.tsx" = some "<h1>" from rfl] at hcontra
  simp at hcontra

/-! ## Claim C2: event-sequence shape -/

/-- Claim C2 counterexample: a stream whose single snapshot carries a file
while the plan is still incomplete (and never reaches `Complete`) produces
`UpdateInProgress, AgentPartial, UpdateFile, UpdateCompleted` — a successful
turn with no `AgentFinal` at all and an `UpdateFile` before any plan
finalization, so the claimed shape does not match. -/
theorem event_shape_counterexample :
    eventTypes (send_feedback_ok "s" "tweak" [] snapsNoFinal g0).1 =
      [.updateInProgress, .agentDelta, .updateFile, .updateCompleted] ∧
    ¬ shapeOk (eventTypes (send_feedback_ok "s" "tweak" [] snapsNoFinal g0).1) := by
  refine ⟨rfl, ?_⟩
  intro hshape
  obtain ⟨a, f, _, _, heq⟩ := hshape
  have hmem : MessageType.agentFinal ∈
      eventTypes (send_feedback_ok "s" "tweak" [] snapsNoFinal g0).1 := by
    rw [heq]
    simp
  rw [show eventTypes (send_feedback_ok "s" "tweak" [] snapsNoFinal g0).1 =
      [.updateInProgress, .agentDelta, .updateFile, .updateCompleted] from rfl] at hmem
  simp at hmem

/-- Claim C2 (amended): for every successful turn whose stream reaches a
`Complete` plan state and in which no snapshot carries a file before the plan
completes, the emitted type sequence matches
`UpdateInProgress, AgentPartial*, AgentFinal, UpdateFile*, UpdateCompleted`,
with `AgentFinal` and `UpdateCompleted` each exactly once and
`UpdateCompleted` last. -/
theorem event_shape_amended (sid fb : String) (hist : List (String × String))
    (pre post : List Snapshot) (q : Snapshot) (g : Gen)
    (hpre : ∀ p ∈ pre, p.planState ≠ "Complete" ∧ p.files = [])
    (hq : post.head? = some q) (hqc : q.planState = "Complete") :
    shapeOk (eventTypes (send_feedback_ok sid fb hist (pre ++ post) g).1) := by
  obtain ⟨rest, rfl⟩ : ∃ rest, post = q :: rest := by
    cases post with
    | nil => simp at hq
    | cons a rest =>
      rw [List.head?_cons, Option.some.injEq] at hq
      exact ⟨rest, by rw [hq]⟩
  rw [send_feedback_ok_events]
  rw [processStream_append]
  set pI := g.uuid (g.next + 2) with hpI
  set fI := g.uuid (g.next + 3) with hfI
  set gIn : Gen := { uuid := g.uuid, next := g.next + 4, now := g.now } with hgIn
  set stIn : TurnState :=
    { sent_plan := false, new_code_map := [], history := hist } with hstIn
  obtain ⟨hpreTypes, hpreState⟩ :=
    processStream_pre sid fb pI fI pre hpre gIn stIn rfl
  set preR := processStream sid fb pI fI gIn stIn pre with hpreR
  rw [processStream]
  rw [hpreState]
  obtain ⟨mF, fevs, st', g', hsnapEq, hmF, hfevs, hsent⟩ :=
    processSnapshot_first_complete sid fb pI fI preR.2.2 stIn q rfl hqc
  rw [hsnapEq]
  have hrest := processStream_sent sid fb pI fI rest g' st' hsent
  refine ⟨preR.1.map Message.type,
    fevs.map Message.type ++
      (processStream sid fb pI fI g' st' rest).1.map Message.type, ?_, ?_, ?_⟩
  · intro x hx
    obtain ⟨m, hm, rfl⟩ := List.mem_map.mp hx
    exact hpreTypes m hm
  · intro x hx
    rcases List.mem_append.mp hx with h | h
    · obtain ⟨m, hm, rfl⟩ := List.mem_map.mp h
      exact hfevs m hm
    · obtain ⟨m, hm, rfl⟩ := List.mem_map.mp h
      exact hrest m hm
  · simp only [eventTypes, List.map_cons, List.map_append, new_type, hmF,
      List.cons_append, List.append_assoc, List.map_nil]

/-- Witness for C2 (amended): one incomplete file-free snapshot followed by a
complete snapshot with two files yields the claimed shape. -/
theorem event_shape_amended_witness :
    (∀ p ∈ [snapPre], p.planState ≠ "Complete" ∧ p.files = []) ∧
    ([snapDone].head? = some snapDone ∧ snapDone.planState = "Complete") ∧
    shapeOk (eventTypes (send_feedback_ok "s" "improve" []
      ([snapPre] ++ [snapDone]) g0).1) :=
  ⟨by decide, ⟨rfl, rfl⟩,
    event_shape_amended "s" "improve" [] [snapPre] [snapDone] snapDone g0
      (by decide) rfl rfl⟩

/-! ## Claim C3: stream failure mid-turn -/

/-- Claim C3: if the LLM stream raises after yielding any prefix of
snapshots, the turn commits nothing (`edit_code` is never reached, the
committed map is `none`), the emitted sequence ends with exactly one
error-payload envelope on the `AGENT_FINAL` channel (none of the earlier
envelopes carries an error payload), and no `UpdateCompleted` envelope is
emitted. -/
theorem stream_failure_turn (sid fb e : String) (hist : List (String × String))
    (yielded : List Snapshot) (g : Gen) :
    (websocket_user_turn sid fb hist (.failAfter yielded e) g).2.1 = none ∧
    (∃ l mErr, (websocket_user_turn sid fb hist (.failAfter yielded e) g).1 =
        l ++ [mErr] ∧ isErrorEnvelope mErr = true ∧
        ∀ m ∈ l, isErrorEnvelope m = false) ∧
    (∀ m ∈ (websocket_user_turn sid fb hist (.failAfter yielded e) g).1,
      m.type ≠ .updateCompleted) := by
  rw [websocket_user_turn_fail]
  refine ⟨rfl, ⟨(send_feedback_core sid fb hist yielded g).1, _, rfl, ?_, ?_⟩, ?_⟩
  · rfl
  · intro m hm
    rw [send_feedback_core_events] at hm
    simp only [List.mem_cons] at hm
    rcases hm with h | h
    · subst h
      rfl
    · obtain ⟨-, s, hdata⟩ := processStream_types sid fb _ _ yielded _ _ m h
      simp [isErrorEnvelope, hdata]
  · intro m hm
    simp only [List.mem_append, List.mem_singleton] at hm
    rcases hm with h | h
    · rw [send_feedback_core_events] at h
      simp only [List.mem_cons] at h
      rcases h with h | h
      · subst h
        rw [new_type]
        simp
      · obtain ⟨hty, -⟩ := processStream_types sid fb _ _ yielded _ _ m h
        rcases hty with h1 | h1 | h1 <;> simp [h1]
    · subst h
      rw [new_type]
      simp

/-! ## Claim C6: the two per-turn correlation ids -/

/-- Claim C6: within one successful turn, all `AGENT_PARTIAL`/`AGENT_FINAL`
envelopes carry the plan correlation id, all `UPDATE_FILE` envelopes carry
the file correlation id, and the two ids (two successive uuid4 draws, which
are nonempty and distinct) differ. -/
theorem correlation_ids (sid fb : String) (hist : List (String × String))
    (snaps : List Snapshot) (g : Gen) (hs : sid ≠ "")
    (hp : g.uuid (g.next + 2) ≠ "") (hf : g.uuid (g.next + 3) ≠ "")
    (hne : g.uuid (g.next + 2) ≠ g.uuid (g.next + 3)) :
    ∃ planId fileId, planId ≠ fileId ∧
      ∀ m ∈ (send_feedback_ok sid fb hist snaps g).1,
        ((m.type = .agentDelta ∨ m.type = .agentFinal) → m.id = planId) ∧
        (m.type = .updateFile → m.id = fileId) := by
  refine ⟨g.uuid (g.next + 2), g.uuid (g.next + 3), hne, ?_⟩
  intro m hm
  rw [send_feedback_ok_events] at hm
  simp only [List.mem_cons, List.mem_append, List.mem_singleton,
    List.not_mem_nil, or_false] at hm
  rcases hm with h | h | h
  · subst h
    refine ⟨fun hty => ?_, fun hty => ?_⟩ <;>
    · rw [new_type] at hty
      simp at hty
  · obtain ⟨-, hfile, hplan⟩ :=
      processStream_ids sid fb _ _ hs hp hf snaps _ _ m h
    refine ⟨fun hty => ?_, hfile⟩
    apply hplan
    rcases hty with h1 | h1 <;> simp [h1]
  · subst h
    refine ⟨fun hty => ?_, fun hty => ?_⟩ <;>
    · rw [new_type] at hty
      simp at hty

/-- Witness for C6: with the concrete supply `g0` (draw n is the string of
n+1 copies of `u`), the plan and file ids differ and the invariant holds. -/
theorem correlation_ids_witness :
    (("s" : String) ≠ "" ∧ g0.uuid (g0.next + 2) ≠ "" ∧
      g0.uuid (g0.next + 3) ≠ "" ∧ g0.uuid (g0.next + 2) ≠ g0.uuid (g0.next + 3)) ∧
    (∃ planId fileId, planId ≠ fileId ∧
      ∀ m ∈ (send_feedback_ok "s" "hi" [] snapsTwice g0).1,
        ((m.type = .agentDelta ∨ m.type = .agentFinal) → m.id = planId) ∧
        (m.type = .updateFile → m.id = fileId)) :=
  ⟨⟨by decide, by decide, by decide, by decide⟩,
    correlation_ids "s" "hi" [] snapsTwice g0
      (by decide) (by decide) (by decide) (by decide)⟩

/-! ## Claim C9: the session id of the initial envelope -/

/-- Claim C9: the initial `UPDATE_IN_PROGRESS` envelope is built without the
session id, so its `session_id` field is a fresh uuid4 draw (distinct from
the real session id, which no uuid4 draw equals), while every other envelope
of the turn carries the real session id. -/
theorem in_progress_session_id (sid fb : String) (hist : List (String × String))
    (snaps : List Snapshot) (g : Gen) (hs : sid ≠ "")
    (hstray : g.uuid (g.next + 1) ≠ sid) :
    ∃ m0 rest, (send_feedback_ok sid fb hist snaps g).1 = m0 :: rest ∧
      m0.type = .updateInProgress ∧
      m0.session_id = g.uuid (g.next + 1) ∧
      m0.session_id ≠ sid ∧
      ∀ m ∈ rest, m.session_id = sid := by
  refine ⟨_, _, send_feedback_ok_events sid fb hist snaps g, rfl, rfl, ?_, ?_⟩
  · show g.uuid (g.next + 1) ≠ sid
    exact hstray
  · intro m hm
    simp only [List.mem_append, List.mem_singleton] at hm
    rcases hm with h | h
    · exact processStream_sids sid fb _ _ hs snaps _ _ m h
    · subst h
      exact new_sid _ _ _ _ hs _

/-- Witness for C9: with session id `"s"` and the supply `g0` (which never
draws `"s"` at index 1), the first envelope's session id is the fresh draw
`"uu"` and the rest carry `"s"`. -/
theorem in_progress_session_id_witness :
    (("s" : String) ≠ "" ∧ g0.uuid (g0.next + 1) ≠ "s") ∧
    (∃ m0 rest, (send_feedback_ok "s" "hi" [] snapsTwice g0).1 = m0 :: rest ∧
      m0.type = .updateInProgress ∧
      m0.session_id = g0.uuid (g0.next + 1) ∧
      m0.session_id ≠ "s" ∧
      ∀ m ∈ rest, m.session_id = "s") :=
  ⟨⟨by decide, by decide⟩,
    in_progress_session_id "s" "hi" [] snapsTwice g0 (by decide) (by decide)⟩

/-! ## Claim C10: the fixed request list of `load_code` -/

theorem lookup_file_map_none (fs : String → Option (List Nat))
    (l : List String) (p : String)
    (h : p ∉ l ∨ ∀ b, fs p = some b → utf8Decode b = none) :
    ((download_files fs l).filterMap
      (fun pc => (utf8Decode pc.2).map (fun s => (pc.1, s)))).lookup p = none := by
  induction l with
  | nil => simp [download_files]
  | cons q l ih =>
    have htail : p ∉ l ∨ ∀ b, fs p = some b → utf8Decode b = none := by
      rcases h with h | h
      · exact Or.inl (fun hl => h (List.mem_cons_of_mem q hl))
      · exact Or.inr h
    rw [download_files, List.filterMap_cons]
    cases hfq : fs q with
    | none => exact ih htail
    | some b =>
      simp only [Option.map_some']
      rw [List.filterMap_cons]
      cases hdec : utf8Decode b with
      | none => exact ih htail
      | some s =>
        simp only [Option.map_some']
        rw [List.lookup]
        cases hbeq : p == q with
        | true =>
          have hpq : p = q := by
            have := eq_of_beq hbeq
            exact this
          subst hpq
          rcases h with h | h
          · exact absurd (List.mem_cons_self p l) h
          · rw [h b hfq] at hdec
            cases hdec
        | false => exact ih htail

/-- Claim C10: `load_code` requests exactly the nine hard-coded paths under
`/app/src` (plus `/app/package.json` handled separately); whenever it
returns, the code map never contains a path outside the candidate list, and
a requested file whose bytes are not valid UTF-8 is silently omitted. -/
theorem load_code_fixed_paths (fs : String → Option (List Nat))
    (m : List (String × String)) (pkg : String)
    (h : load_code fs = .ok (m, pkg)) :
    common_files.length = 9 ∧
    (∀ q ∈ common_files, DEFAULT_CODE_PATH.data.isPrefixOf q.data = true) ∧
    (∀ p, p ∉ common_files → m.lookup p = none) ∧
    (∀ p b, fs p = some b → utf8Decode b = none → m.lookup p = none) := by
  have hm : m = (download_files fs common_files).filterMap
      (fun pc => (utf8Decode pc.2).map (fun s => (pc.1, s))) := by
    rw [load_code.eq_def] at h
    split at h
    · split at h
      · simp only [Except.ok.injEq, Prod.mk.injEq] at h
        exact h.1.symm
      · cases h
    · simp only [Except.ok.injEq, Prod.mk.injEq] at h
      exact h.1.symm
  subst hm
  refine ⟨rfl, by decide, ?_, ?_⟩
  · intro p hp
    exact lookup_file_map_none fs common_files p (Or.inl hp)
  · intro p b hb hdec
    refine lookup_file_map_none fs common_files p (Or.inr fun b' hb' => ?_)
    rw [hb, Option.some.injEq] at hb'
    rw [← hb']
    exact hdec

/-- Witness for C10: on a sandbox holding a decodable `App.tsx`, a binary
`App.css` and an unrequested `rogue.ts`, the returned map holds only
`App.tsx`; the binary file and the unrequested file are absent. -/
theorem load_code_fixed_paths_witness :
    (load_code fsW = .ok ([("/app/src/App.tsx", "hi")], default_package_json)) ∧
    (fsW "/app/src/rogue.ts" = some [65] ∧
      fsW "/app/src/App.css" = some [255] ∧ utf8Decode [255] = none) ∧
    (common_files.length = 9 ∧
     (∀ q ∈ common_files, DEFAULT_CODE_PATH.data.isPrefixOf q.data = true) ∧
     (∀ p, p ∉ common_files →
        ([("/app/src/App.tsx", "hi")] : List (String × String)).lookup p = none) ∧
     (∀ p b, fsW p = some b → utf8Decode b = none →
        ([("/app/src/App.tsx", "hi")] : List (String × String)).lookup p = none)) :=
  ⟨rfl, ⟨rfl, rfl, rfl⟩,
    load_code_fixed_paths fsW [("/app/src/App.tsx", "hi")] default_package_json rfl⟩

end Scaffold
